import Mathlib

/-!
Shallow embedding of `sensor.py` (OzGav/opensky): the OpenSky Network sensor.

The embedding models

* `get_bbox` — the pure bounding-box computation `OpenSkySensor._get_bbox`,
  over real numbers (Python floats are modelled as exact reals, Python's
  float `%` as `pymod`);
* `update` — `OpenSkySensor.update`, with the already-fetched HTTP outcome
  supplied as a `Fetch` value, JSON scalars as the type `V`, the external
  great-circle distance function `homeassistant.util.location.distance` as a
  parameter of type `Dist`, and Python exceptions as `Except PyErr`;
* `handleBoundary` — `OpenSkySensor._handle_boundary`, with the event bus
  modelled by returning the list of fired events.
-/

namespace OpenSky

/-- A JSON-ish Python value appearing in an OpenSky state vector: `None`,
a boolean, a number (Python ints/floats modelled as exact rationals), or a
string. -/
inductive V where
  | null
  | bool (b : Bool)
  | num (q : ℚ)
  | str (s : String)
deriving DecidableEq, Repr

/-- The Python exceptions the modelled code can raise. -/
inductive PyErr where
  | keyError
  | attributeError
  | typeError
  | netError
deriving DecidableEq, Repr

/-- Python truthiness of a value `V` (used by `if flight.get(ATTR_ON_GROUND)`
and similar tests). -/
def truthy : V → Bool
  | V.null => false
  | V.bool b => b
  | V.num q => decide (q ≠ 0)
  | V.str s => decide (s ≠ "")

/-- Model of `dict(zip(OPENSKY_API_FIELDS, state)).get(field_at_index_i)`: `zip`
truncates at the shorter sequence, so a missing trailing field behaves as
`None`; the 13 field names are pairwise distinct, so the dict lookup is the
positional lookup. -/
def fget (state : List V) (i : ℕ) : V :=
  state.getD i V.null

/-- Using a value as a number (as `homeassistant.util.location.distance`
does with its latitude/longitude arguments): Python booleans are numbers
(`True = 1`, `False = 0`); strings and `None` raise `TypeError`. -/
def asNum : V → Except PyErr ℚ
  | V.num q => Except.ok q
  | V.bool b => Except.ok (if b then 1 else 0)
  | _ => Except.error PyErr.typeError

/-- Python `v > q` for `v : V` against a float `q` (the
`altitude > self._altitude` test): numbers and booleans compare, `None` and
strings raise `TypeError`. -/
def pyGT (v : V) (q : ℚ) : Except PyErr Bool :=
  match v with
  | V.num x => Except.ok (decide (q < x))
  | V.bool b => Except.ok (decide (q < if b then 1 else 0))
  | _ => Except.error PyErr.typeError

/-- The external great-circle distance function
(`homeassistant.util.location.distance`), applied to the sensor's own
coordinates and a record's coordinates; it may return `None`. -/
abbrev Dist := ℚ → ℚ → ℚ → ℚ → Option ℚ

/-- The `flight_metadata` value: a Python dict from callsign to the record stored for
it, modelled extensionally. -/
def Meta := String → Option (List V)

/-- The empty `flight_metadata` dict (`{}`). -/
def emptyMeta : Meta := fun _ => none

/-- Model of `flight_metadata[callsign] = flight`: dict assignment (replace or add). -/
def minsert (m : Meta) (k : String) (v : List V) : Meta :=
  fun q => if q = k then some v else m q

/-- The `OpenSkySensor` instance fields touched by the modelled methods.
`latitude`/`longitude` are the center (degrees), `radius` is
`self._radius` in meters (already converted from km at construction),
`altitude` is the ceiling `self._altitude`, `state` is `self._state`,
`previously_tracked` is `self._previously_tracked` (a Python set, modelled
as a duplicate-free list fixing one iteration order), and the four bbox
fields are `self._lat_min` … `self._lon_max` computed at construction. -/
structure Sensor where
  name : String
  latitude : ℚ
  longitude : ℚ
  radius : ℚ
  altitude : ℚ
  state : ℕ
  previously_tracked : Option (List String)
  lat_min : ℝ
  lon_min : ℝ
  lat_max : ℝ
  lon_max : ℝ

/-- The two event types `opensky_entry` and `opensky_exit`. -/
inductive EvKind where
  | entry
  | exit
deriving DecidableEq, Repr

/-- One event fired on the bus by `_handle_boundary`: the `data` dict plus
the event type. -/
structure Event where
  kind : EvKind
  callsign : String
  altitude : V
  sensor : String
  longitude : V
  latitude : V
  icao24 : V
deriving DecidableEq, Repr

/-- Python `str.strip()` with no argument: remove leading and trailing
whitespace. -/
def pystrip (s : String) : String :=
  ⟨((s.data.dropWhile Char.isWhitespace).reverse.dropWhile Char.isWhitespace).reverse⟩

/-- Model of `flight[ATTR_CALLSIGN].strip()`: the callsign field is at index 1;
a record with fewer than 2 fields raises `KeyError` on the dict lookup, a
non-string callsign raises `AttributeError` on `.strip()`. -/
def callsignOf (state : List V) : Except PyErr String :=
  match state.get? 1 with
  | none => Except.error PyErr.keyError
  | some (V.str x) => Except.ok (pystrip x)
  | some _ => Except.error PyErr.attributeError

/-- The inclusion-filter chain of `OpenSkySensor.update` applied to one
record (the body from the `longitude`/`latitude`/`on_ground` test to the
altitude-ceiling test): `true` means the callsign is added to
`currently_tracked`, `false` means a `continue` was taken. Field indices:
longitude 5, latitude 6, altitude 7, on_ground 8. -/
def qualifies (dist : Dist) (s : Sensor) (flight : List V) : Except PyErr Bool :=
  if fget flight 5 = V.null then Except.ok false
  else if fget flight 6 = V.null then Except.ok false
  else if truthy (fget flight 8) then Except.ok false
  else
    match asNum (fget flight 6), asNum (fget flight 5) with
    | Except.error e, _ => Except.error e
    | _, Except.error e => Except.error e
    | Except.ok la, Except.ok lo =>
      match dist s.latitude s.longitude la lo with
      | none => Except.ok false
      | some d =>
        if s.radius < d then Except.ok false
        else if fget flight 7 = V.null then Except.ok false
        else
          match pyGT (fget flight 7) s.altitude with
          | Except.error e => Except.error e
          | Except.ok gt => Except.ok (!(gt && decide (s.altitude ≠ 0)))

/-- Model of `currently_tracked.add(callsign)`: set insertion on the model of a
Python set as a duplicate-free list. -/
def addTracked (tracked : List String) (c : String) : List String :=
  if c ∈ tracked then tracked else tracked ++ [c]

/-- One iteration of the `for state in states` loop of
`OpenSkySensor.update`, acting on the pair
`(currently_tracked, flight_metadata)`. -/
def processRecord (dist : Dist) (s : Sensor) (acc : List String × Meta)
    (state : List V) : Except PyErr (List String × Meta) :=
  match callsignOf state with
  | Except.error e => Except.error e
  | Except.ok c =>
    if c = "" then Except.ok acc
    else
      match qualifies dist s state with
      | Except.error e => Except.error e
      | Except.ok b =>
        Except.ok (if b then addTracked acc.1 c else acc.1, minsert acc.2 c state)

/-- The whole `for state in states` loop; an exception raised for one
record aborts the loop (there is no try/except around it). -/
def processAll (dist : Dist) (s : Sensor) :
    List (List V) → List String × Meta → Except PyErr (List String × Meta)
  | [], acc => Except.ok acc
  | st :: rest, acc =>
    match processRecord dist s acc st with
    | Except.error e => Except.error e
    | Except.ok acc' => processAll dist s rest acc'

/-- Model of `OpenSkySensor._handle_boundary`: fire one event per flight in the
given iteration order, populating the data from `flight_metadata` when the
callsign is present and with `altitude = 0`, `None` position/icao24
otherwise. -/
def handleBoundary (s : Sensor) (flights : List String) (k : EvKind)
    (meta : Meta) : List Event :=
  flights.map fun c =>
    match meta c with
    | some flight =>
      { kind := k, callsign := c, altitude := fget flight 7, sensor := s.name,
        longitude := fget flight 5, latitude := fget flight 6,
        icao24 := fget flight 0 }
    | none =>
      { kind := k, callsign := c, altitude := V.num 0, sensor := s.name,
        longitude := V.null, latitude := V.null, icao24 := V.null }

/-- The value bound to `states` after the fetch and the
`try: states = states.json().get(ATTR_STATES) except: …` block, as seen by
the rest of `update`:

* `netError` — `session.get` itself raised; the exception propagates out of
  `update` untouched;
* `got truthiness records` — the subsequent `if states:` sees `truthiness`
  and, when true, `for state in states` iterates `records`. A parsed
  response with a `"states"` list `ls` is `got (ls ≠ []) ls` (a Python list
  is truthy iff nonempty); a parsed response with the key missing or null is
  `got false []`; a non-JSON body caught by the bare `except` leaves
  `states` bound to the `requests.Response`, whose truthiness is `status_ok`
  and whose iteration yields raw byte chunks (lists of `V.num` bytes). -/
inductive Fetch where
  | netError
  | got (truthiness : Bool) (records : List (List V))

/-- Model of `OpenSkySensor.update`, given the fetch outcome. Returns the updated
sensor and the list of events fired, or the Python exception that
propagated (in which case no field was mutated and no event fired — all
raises happen inside the record loop, before `_handle_boundary` and the
assignments to `_state` and `_previously_tracked`). -/
def update (dist : Dist) (s : Sensor) (f : Fetch) :
    Except PyErr (Sensor × List Event) :=
  match f with
  | Fetch.netError => Except.error PyErr.netError
  | Fetch.got t recs =>
    match (if t then processAll dist s recs ([], emptyMeta)
           else Except.ok ([], emptyMeta)) with
    | Except.error e => Except.error e
    | Except.ok (tracked, meta) =>
      let events :=
        match s.previously_tracked with
        | none => []
        | some prev =>
          handleBoundary s (tracked.filter fun c => decide (c ∉ prev))
              EvKind.entry meta ++
          handleBoundary s (prev.filter fun c => decide (c ∉ tracked))
              EvKind.exit meta
      Except.ok
        ({ s with state := tracked.length, previously_tracked := some tracked },
         events)

/-- Python's float `%` operator: `x % y = x - y * floor(x / y)` (the result
takes the sign of `y`), for `y ≠ 0`. -/
noncomputable def pymod (x y : ℝ) : ℝ := x - y * ⌊x / y⌋

/-- Model of `math.radians`. -/
noncomputable def radiansD (d : ℝ) : ℝ := d * (Real.pi / 180)

/-- Model of `math.degrees`. -/
noncomputable def degreesD (r : ℝ) : ℝ := r * (180 / Real.pi)

/-- Model of `OpenSkySensor._get_bbox`, with Python floats modelled as exact reals:
given the center in degrees and `self._radius` in meters, return
`(lat_min, lon_min, lat_max, lon_max)` in degrees. The `assert
half_side_in_km > 0` appears as a positivity hypothesis in the theorems
about this function. -/
noncomputable def get_bbox (latitude longitude radius : ℝ) : ℝ × ℝ × ℝ × ℝ :=
  let half_side_in_km := radius / 1000
  let lat := radiansD latitude
  let lon := radiansD longitude
  let approx_earth_radius : ℝ := 6371
  let parallel_radius := approx_earth_radius * Real.cos lat
  let lat_min := max (-(Real.pi / 2)) (lat - half_side_in_km / approx_earth_radius)
  let lat_max := min (Real.pi / 2) (lat + half_side_in_km / approx_earth_radius)
  let lon_min0 := lon - half_side_in_km / parallel_radius
  let lon_min :=
    if lon_min0 < -Real.pi then Real.pi + pymod lon_min0 (-Real.pi) else lon_min0
  let lon_max0 := lon + half_side_in_km / parallel_radius
  let lon_max :=
    if Real.pi < lon_max0 then Real.pi - pymod lon_max0 Real.pi else lon_max0
  (degreesD lat_min, degreesD lon_min, degreesD lat_max, degreesD lon_max)

/-! ### Helper lemmas about the tracker -/

theorem mem_addTracked {tracked : List String} {c c' : String} :
    c' ∈ addTracked tracked c ↔ c' ∈ tracked ∨ c' = c := by
  unfold addTracked
  by_cases h : c ∈ tracked
  · simp only [if_pos h]
    constructor
    · exact Or.inl
    · rintro (hm | rfl)
      · exact hm
      · exact h
  · simp [if_neg h]

theorem nodup_addTracked {tracked : List String} {c : String}
    (h : tracked.Nodup) : (addTracked tracked c).Nodup := by
  unfold addTracked
  by_cases hc : c ∈ tracked
  · simpa [if_pos hc]
  · simp [if_neg hc, List.nodup_append, h, hc]

/-- Successful `processRecord` runs are of exactly two shapes: a blank
callsign leaves the accumulator alone, a non-blank one stores the record in
the metadata and adds the callsign to the tracked set iff it qualifies. -/
theorem processRecord_ok {dist : Dist} {s : Sensor} {acc : List String × Meta}
    {st : List V} {out : List String × Meta}
    (h : processRecord dist s acc st = Except.ok out) :
    ∃ c, callsignOf st = Except.ok c ∧
      ((c = "" ∧ out = acc) ∨
        (c ≠ "" ∧
          ((qualifies dist s st = Except.ok true ∧
              out = (addTracked acc.1 c, minsert acc.2 c st)) ∨
           (qualifies dist s st = Except.ok false ∧
              out = (acc.1, minsert acc.2 c st))))) := by
  cases hcs : callsignOf st with
  | error e => simp only [processRecord, hcs] at h; exact Except.noConfusion h
  | ok c =>
    simp only [processRecord, hcs] at h
    refine ⟨c, rfl, ?_⟩
    by_cases hc : c = ""
    · rw [if_pos hc] at h
      exact Or.inl ⟨hc, by cases h; rfl⟩
    · rw [if_neg hc] at h
      cases hq : qualifies dist s st with
      | error e => rw [hq] at h; cases h
      | ok b =>
        rw [hq] at h
        cases h
        cases b with
        | true => exact Or.inr ⟨hc, Or.inl ⟨rfl, by simp⟩⟩
        | false => exact Or.inr ⟨hc, Or.inr ⟨rfl, by simp⟩⟩

theorem processAll_cons {dist : Dist} {s : Sensor} {st : List V}
    {rest : List (List V)} {acc acc' out : List String × Meta}
    (h1 : processRecord dist s acc st = Except.ok acc')
    (h2 : processAll dist s rest acc' = Except.ok out) :
    processAll dist s (st :: rest) acc = Except.ok out := by
  unfold processAll
  rw [h1]
  exact h2

/-- The tracked set computed by the loop is duplicate-free. -/
theorem processAll_nodup {dist : Dist} {s : Sensor} :
    ∀ {recs : List (List V)} {acc out : List String × Meta},
      processAll dist s recs acc = Except.ok out → acc.1.Nodup → out.1.Nodup := by
  intro recs
  induction recs with
  | nil => intro acc out h hn; cases h; exact hn
  | cons st rest ih =>
    intro acc out h hn
    unfold processAll at h
    cases hr : processRecord dist s acc st with
    | error e => rw [hr] at h; cases h
    | ok acc' =>
      rw [hr] at h
      refine ih h ?_
      obtain ⟨c, _, hcase⟩ := processRecord_ok hr
      rcases hcase with ⟨_, rfl⟩ | ⟨_, ⟨_, rfl⟩ | ⟨_, rfl⟩⟩
      · exact hn
      · exact nodup_addTracked hn
      · exact hn

/-- Membership in the computed tracked set: a callsign is tracked iff it was
already in the accumulator or some record of the batch carries it (non-blank)
and qualifies. -/
theorem processAll_mem {dist : Dist} {s : Sensor} :
    ∀ {recs : List (List V)} {acc out : List String × Meta},
      processAll dist s recs acc = Except.ok out →
      ∀ c, c ∈ out.1 ↔ c ∈ acc.1 ∨
        ∃ r ∈ recs, callsignOf r = Except.ok c ∧ c ≠ "" ∧
          qualifies dist s r = Except.ok true := by
  intro recs
  induction recs with
  | nil =>
    intro acc out h c
    cases h
    simp
  | cons st rest ih =>
    intro acc out h c
    unfold processAll at h
    cases hr : processRecord dist s acc st with
    | error e => rw [hr] at h; cases h
    | ok acc' =>
      rw [hr] at h
      rw [ih h c]
      obtain ⟨c₀, hcs, hcase⟩ := processRecord_ok hr
      constructor
      · rintro (hm | ⟨r, hrm, hrc, hne, hq⟩)
        · rcases hcase with ⟨_, rfl⟩ | ⟨hne₀, ⟨hq₀, rfl⟩ | ⟨hq₀, rfl⟩⟩
          · exact Or.inl hm
          · rcases mem_addTracked.mp hm with hm' | rfl
            · exact Or.inl hm'
            · exact Or.inr ⟨st, List.mem_cons_self _ _, hcs, hne₀, hq₀⟩
          · exact Or.inl hm
        · exact Or.inr ⟨r, List.mem_cons_of_mem _ hrm, hrc, hne, hq⟩
      · rintro (hm | ⟨r, hrm, hrc, hne, hq⟩)
        · rcases hcase with ⟨_, rfl⟩ | ⟨hne₀, ⟨hq₀, rfl⟩ | ⟨hq₀, rfl⟩⟩
          · exact Or.inl hm
          · exact Or.inl (mem_addTracked.mpr (Or.inl hm))
          · exact Or.inl hm
        · rcases List.mem_cons.mp hrm with hreq | hrm'
          · rw [hreq, hcs] at hrc
            cases hrc
            rw [hreq] at hq
            rcases hcase with ⟨hblank, rfl⟩ | ⟨_, ⟨hq₀, rfl⟩ | ⟨hq₀, rfl⟩⟩
            · exact absurd hblank hne
            · exact Or.inl (mem_addTracked.mpr (Or.inr rfl))
            · rw [hq₀] at hq
              simp at hq
          · exact Or.inr ⟨r, hrm', hrc, hne, hq⟩

/-- If no record of the batch carries callsign `c`, the metadata entry for
`c` is untouched by the loop. -/
theorem processAll_meta_untouched {dist : Dist} {s : Sensor} {c : String} :
    ∀ {recs : List (List V)} {acc out : List String × Meta},
      processAll dist s recs acc = Except.ok out →
      (∀ r ∈ recs, ∀ x, callsignOf r = Except.ok x → x ≠ c) →
      out.2 c = acc.2 c := by
  intro recs
  induction recs with
  | nil => intro acc out h _; cases h; rfl
  | cons st rest ih =>
    intro acc out h habs
    unfold processAll at h
    cases hr : processRecord dist s acc st with
    | error e => rw [hr] at h; cases h
    | ok acc' =>
      rw [hr] at h
      have hrec := ih h fun r hr' => habs r (List.mem_cons_of_mem _ hr')
      rw [hrec]
      obtain ⟨c₀, hcs, hcase⟩ := processRecord_ok hr
      have hne : c₀ ≠ c := habs st (List.mem_cons_self _ _) c₀ hcs
      rcases hcase with ⟨_, rfl⟩ | ⟨hne₀, ⟨_, rfl⟩ | ⟨_, rfl⟩⟩
      · rfl
      · simp [minsert, Ne.symm hne]
      · simp [minsert, Ne.symm hne]

/-- Metadata accumulates: every non-blank callsign carried by some record of
the batch (and every key already present) ends up bound in the metadata. -/
theorem processAll_meta_some {dist : Dist} {s : Sensor} :
    ∀ {recs : List (List V)} {acc out : List String × Meta},
      processAll dist s recs acc = Except.ok out →
      ∀ c, ((∃ fl, acc.2 c = some fl) ∨
            ∃ r ∈ recs, callsignOf r = Except.ok c ∧ c ≠ "") →
        ∃ fl, out.2 c = some fl := by
  intro recs
  induction recs with
  | nil =>
    intro acc out h c hc
    cases h
    rcases hc with hfl | ⟨r, hrm, _⟩
    · exact hfl
    · cases hrm
  | cons st rest ih =>
    intro acc out h c hc
    unfold processAll at h
    cases hr : processRecord dist s acc st with
    | error e => rw [hr] at h; cases h
    | ok acc' =>
      rw [hr] at h
      refine ih h c ?_
      obtain ⟨c₀, hcs, hcase⟩ := processRecord_ok hr
      have hkeep : ∀ fl, acc.2 c = some fl →
          ∃ fl', (minsert acc.2 c₀ st) c = some fl' := by
        intro fl hfl
        by_cases hcc : c = c₀
        · exact ⟨st, by simp [minsert, hcc]⟩
        · exact ⟨fl, by simpa [minsert, hcc]⟩
      rcases hc with ⟨fl, hfl⟩ | ⟨r, hrm, hrc, hne⟩
      · rcases hcase with ⟨_, rfl⟩ | ⟨_, ⟨_, rfl⟩ | ⟨_, rfl⟩⟩
        · exact Or.inl ⟨fl, hfl⟩
        · exact Or.inl (hkeep fl hfl)
        · exact Or.inl (hkeep fl hfl)
      · rcases List.mem_cons.mp hrm with hreq | hrm'
        · rw [hreq, hcs] at hrc
          cases hrc
          rcases hcase with ⟨hblank, rfl⟩ | ⟨_, ⟨_, rfl⟩ | ⟨_, rfl⟩⟩
          · exact absurd hblank hne
          · exact Or.inl ⟨st, by simp [minsert]⟩
          · exact Or.inl ⟨st, by simp [minsert]⟩
        · exact Or.inr ⟨r, hrm', hrc, hne⟩

/-- A batch of qualifying records with pairwise-distinct non-blank callsigns
appends exactly those callsigns to the tracked set, in order. -/
theorem processAll_all_qualify {dist : Dist} {s : Sensor} :
    ∀ {recs : List (List V)} {css : List String} {acc out : List String × Meta},
      List.Forall₂ (fun r c => callsignOf r = Except.ok c ∧ c ≠ "" ∧
        qualifies dist s r = Except.ok true) recs css →
      css.Nodup → (∀ c ∈ css, c ∉ acc.1) →
      processAll dist s recs acc = Except.ok out → out.1 = acc.1 ++ css := by
  intro recs
  induction recs with
  | nil =>
    intro css acc out hf _ _ h
    cases hf
    cases h
    simp
  | cons st rest ih =>
    intro css acc out hf hnd hdisj h
    cases hf with
    | cons hhead htail =>
      rename_i c cs'
      obtain ⟨hcs, hne, hq⟩ := hhead
      unfold processAll at h
      rw [show processRecord dist s acc st =
            Except.ok (addTracked acc.1 c, minsert acc.2 c st) by
          simp only [processRecord, hcs, if_neg hne, hq]; rfl] at h
      have hnotin : c ∉ acc.1 := hdisj c (List.mem_cons_self _ _)
      have haddeq : addTracked acc.1 c = acc.1 ++ [c] := by
        unfold addTracked
        rw [if_neg hnotin]
      have := ih htail (List.Nodup.of_cons hnd) ?_ h
      · rw [this, haddeq, List.append_assoc]
        rfl
      · intro c' hc'
        rw [haddeq]
        simp only [List.mem_append, List.mem_singleton]
        rintro (hin | rfl)
        · exact hdisj c' (List.mem_cons_of_mem _ hc') hin
        · exact (List.nodup_cons.mp hnd).1 hc'

/-- The non-blank trimmed callsigns of a batch, in order of occurrence. -/
def cssOf (recs : List (List V)) : List String :=
  recs.filterMap fun r =>
    match callsignOf r with
    | Except.ok c => if c = "" then none else some c
    | Except.error _ => none

/-- The tracked-set/metadata invariant: when the non-blank callsigns of the
batch are pairwise distinct and fresh for the metadata accumulator, the loop
preserves "tracked iff the stored metadata record qualifies". -/
theorem processAll_inv {dist : Dist} {s : Sensor} :
    ∀ {recs : List (List V)} {acc out : List String × Meta},
      processAll dist s recs acc = Except.ok out →
      (cssOf recs).Nodup →
      (∀ c ∈ cssOf recs, acc.2 c = none) →
      (∀ c, c ∈ acc.1 ↔ ∃ fl, acc.2 c = some fl ∧
        qualifies dist s fl = Except.ok true) →
      ∀ c, c ∈ out.1 ↔ ∃ fl, out.2 c = some fl ∧
        qualifies dist s fl = Except.ok true := by
  intro recs
  induction recs with
  | nil =>
    intro acc out h _ _ hinv
    cases h
    exact hinv
  | cons st rest ih =>
    intro acc out h hnd hfresh hinv
    unfold processAll at h
    cases hr : processRecord dist s acc st with
    | error e => rw [hr] at h; cases h
    | ok acc' =>
      rw [hr] at h
      obtain ⟨c₀, hcs, hcase⟩ := processRecord_ok hr
      rcases hcase with ⟨hblank, rfl⟩ | ⟨hne₀, hsub⟩
      · have hcss : cssOf (st :: rest) = cssOf rest := by
          simp [cssOf, hcs, hblank]
        rw [hcss] at hnd hfresh
        exact ih h hnd hfresh hinv
      · have hcss : cssOf (st :: rest) = c₀ :: cssOf rest := by
          simp [cssOf, hcs, hne₀]
        rw [hcss] at hnd hfresh
        have hc₀fresh : acc.2 c₀ = none := hfresh c₀ (List.mem_cons_self _ _)
        have hc₀rest : c₀ ∉ cssOf rest := (List.nodup_cons.mp hnd).1
        have hnotin : c₀ ∉ acc.1 := by
          rw [hinv c₀]
          rintro ⟨fl, hfl, -⟩
          rw [hc₀fresh] at hfl
          cases hfl
        have hfresh' : ∀ c ∈ cssOf rest, (minsert acc.2 c₀ st) c = none := by
          intro c hc
          have hne : c ≠ c₀ := fun heq => hc₀rest (heq ▸ hc)
          simpa [minsert, hne] using hfresh c (List.mem_cons_of_mem _ hc)
        rcases hsub with ⟨hq₀, rfl⟩ | ⟨hq₀, rfl⟩
        · refine ih h (List.nodup_cons.mp hnd).2 hfresh' ?_
          intro c
          by_cases hcc : c = c₀
          · subst hcc
            simp only [mem_addTracked]
            constructor
            · intro _; exact ⟨st, by simp [minsert], hq₀⟩
            · intro _; exact Or.inr trivial
          · simp only [mem_addTracked]
            constructor
            · rintro (hmem | hreq)
              · obtain ⟨fl, hfl, hq⟩ := (hinv c).mp hmem
                exact ⟨fl, by simpa [minsert, hcc], hq⟩
              · exact absurd hreq hcc
            · rintro ⟨fl, hfl, hq⟩
              exact Or.inl ((hinv c).mpr ⟨fl, by simpa [minsert, hcc] using hfl, hq⟩)
        · refine ih h (List.nodup_cons.mp hnd).2 hfresh' ?_
          intro c
          by_cases hcc : c = c₀
          · subst hcc
            constructor
            · intro hmem; exact absurd hmem hnotin
            · rintro ⟨fl, hfl, hq⟩
              have hflst : fl = st := by
                have := hfl
                simp only [minsert, if_pos rfl] at this
                exact (Option.some.injEq _ _ ▸ this).symm
              rw [hflst, hq₀] at hq
              simp at hq
          · constructor
            · intro hmem
              obtain ⟨fl, hfl, hq⟩ := (hinv c).mp hmem
              exact ⟨fl, by simpa [minsert, hcc], hq⟩
            · rintro ⟨fl, hfl, hq⟩
              exact (hinv c).mpr ⟨fl, by simpa [minsert, hcc] using hfl, hq⟩

/-- A value that the numeric comparisons of the filter chain accept without
raising: anything but a string (numbers and booleans are Python numbers,
`None`/absent is screened out by the `is None` tests before any
comparison). -/
def numOK : V → Bool
  | V.str _ => false
  | _ => true

/-- The record has a string in the callsign position, so
`flight[ATTR_CALLSIGN].strip()` does not raise. -/
def csOK (r : List V) : Bool :=
  match r.get? 1 with
  | some (V.str _) => true
  | _ => false

theorem callsignOf_ok_of_csOK {r : List V} (h : csOK r) :
    ∃ c, callsignOf r = Except.ok c := by
  unfold csOK at h
  unfold callsignOf
  cases hg : r.get? 1 with
  | none => rw [hg] at h; cases h
  | some v =>
    rw [hg] at h
    cases v with
    | str x => exact ⟨pystrip x, rfl⟩
    | null => cases h
    | bool b => cases h
    | num q => cases h

theorem qualifies_ok_of_numOK {dist : Dist} {s : Sensor} {r : List V}
    (h5 : numOK (fget r 5)) (h6 : numOK (fget r 6)) (h7 : numOK (fget r 7)) :
    ∃ b, qualifies dist s r = Except.ok b := by
  by_cases hn5 : fget r 5 = V.null
  · exact ⟨false, by simp only [qualifies, if_pos hn5]⟩
  by_cases hn6 : fget r 6 = V.null
  · exact ⟨false, by simp only [qualifies, if_neg hn5, if_pos hn6]⟩
  by_cases hg : truthy (fget r 8)
  · exact ⟨false, by simp only [qualifies, if_neg hn5, if_neg hn6, if_pos hg]⟩
  have hnum : ∀ v : V, numOK v → v ≠ V.null → ∃ q, asNum v = Except.ok q := by
    intro v hv hnn
    cases v with
    | null => exact absurd rfl hnn
    | bool b => exact ⟨if b then 1 else 0, rfl⟩
    | num q => exact ⟨q, rfl⟩
    | str x => cases hv
  obtain ⟨la, hla⟩ := hnum _ h6 hn6
  obtain ⟨lo, hlo⟩ := hnum _ h5 hn5
  cases hd : dist s.latitude s.longitude la lo with
  | none =>
    exact ⟨false, by
      simp only [qualifies, if_neg hn5, if_neg hn6, if_neg hg, hla, hlo, hd]⟩
  | some d =>
    by_cases hrad : s.radius < d
    · exact ⟨false, by
        simp only [qualifies, if_neg hn5, if_neg hn6, if_neg hg, hla, hlo, hd,
          if_pos hrad]⟩
    by_cases hn7 : fget r 7 = V.null
    · exact ⟨false, by
        simp only [qualifies, if_neg hn5, if_neg hn6, if_neg hg, hla, hlo, hd,
          if_neg hrad, if_pos hn7]⟩
    have hgt : ∃ g, pyGT (fget r 7) s.altitude = Except.ok g := by
      cases hv : fget r 7 with
      | null => exact absurd hv hn7
      | str x => rw [hv] at h7; cases h7
      | bool b => exact ⟨_, rfl⟩
      | num q => exact ⟨_, rfl⟩
    obtain ⟨g, hg7⟩ := hgt
    refine ⟨!(g && decide (s.altitude ≠ 0)), ?_⟩
    simp only [qualifies, if_neg hn5, if_neg hn6, if_neg hg, hla, hlo, hd,
      if_neg hrad, if_neg hn7, hg7]

/-- A batch of well-shaped records (string callsign, non-string
longitude/latitude/altitude) never makes the loop raise. -/
theorem processAll_ok_of_good {dist : Dist} {s : Sensor} :
    ∀ {recs : List (List V)} (acc : List String × Meta),
      (∀ r ∈ recs, csOK r ∧ numOK (fget r 5) ∧ numOK (fget r 6) ∧ numOK (fget r 7)) →
      ∃ out, processAll dist s recs acc = Except.ok out := by
  intro recs
  induction recs with
  | nil => exact fun acc _ => ⟨acc, rfl⟩
  | cons st rest ih =>
    intro acc hgood
    obtain ⟨hcs, h5, h6, h7⟩ := hgood st (List.mem_cons_self _ _)
    obtain ⟨c, hc⟩ := callsignOf_ok_of_csOK hcs
    obtain ⟨b, hb⟩ := @qualifies_ok_of_numOK dist s st h5 h6 h7
    have hrest := fun r hr => hgood r (List.mem_cons_of_mem _ hr)
    by_cases hblank : c = ""
    · obtain ⟨out, hout⟩ := ih acc hrest
      exact ⟨out, by unfold processAll
                     rw [show processRecord dist s acc st = Except.ok acc by
                          simp only [processRecord, hc, if_pos hblank]]
                     exact hout⟩
    · obtain ⟨out, hout⟩ := ih (if b then addTracked acc.1 c else acc.1,
        minsert acc.2 c st) hrest
      refine ⟨out, ?_⟩
      unfold processAll
      rw [show processRecord dist s acc st =
            Except.ok (if b then addTracked acc.1 c else acc.1, minsert acc.2 c st) by
          simp only [processRecord, hc, if_neg hblank, hb]]
      exact hout

/-- The loop never reads `previously_tracked`: changing that field of the
sensor changes nothing about the processing of a batch. -/
theorem processAll_prev_irrel {dist : Dist} {s : Sensor}
    {p : Option (List String)} :
    ∀ {recs : List (List V)} {acc : List String × Meta},
      processAll dist { s with previously_tracked := p } recs acc =
        processAll dist s recs acc := by
  intro recs
  induction recs with
  | nil => intro acc; rfl
  | cons st rest ih =>
    intro acc
    unfold processAll
    have hrec : processRecord dist { s with previously_tracked := p } acc st =
        processRecord dist s acc st := rfl
    rw [hrec]
    cases processRecord dist s acc st with
    | error e => rfl
    | ok acc' => exact ih

/-! ### Helper lemmas about `handleBoundary` and `update` -/

theorem handleBoundary_map_callsign (s : Sensor) (l : List String) (k : EvKind)
    (m : Meta) : (handleBoundary s l k m).map Event.callsign = l := by
  unfold handleBoundary
  rw [List.map_map]
  have : (Event.callsign ∘ fun c =>
      match m c with
      | some flight =>
        ({ kind := k, callsign := c, altitude := fget flight 7, sensor := s.name,
           longitude := fget flight 5, latitude := fget flight 6,
           icao24 := fget flight 0 } : Event)
      | none =>
        ({ kind := k, callsign := c, altitude := V.num 0, sensor := s.name,
           longitude := V.null, latitude := V.null, icao24 := V.null } : Event)) =
      id := by
    funext c
    simp only [Function.comp_apply, id_eq]
    cases m c <;> rfl
  rw [this, List.map_id]

theorem handleBoundary_kind {s : Sensor} {l : List String} {k : EvKind}
    {m : Meta} {e : Event} (h : e ∈ handleBoundary s l k m) : e.kind = k := by
  unfold handleBoundary at h
  obtain ⟨c, -, rfl⟩ := List.mem_map.mp h
  cases m c <;> rfl

theorem handleBoundary_mem_none {s : Sensor} {l : List String} {k : EvKind}
    {m : Meta} {c : String} (hc : c ∈ l) (hm : m c = none) :
    ({ kind := k, callsign := c, altitude := V.num 0, sensor := s.name,
       longitude := V.null, latitude := V.null, icao24 := V.null } : Event) ∈
      handleBoundary s l k m := by
  unfold handleBoundary
  refine List.mem_map.mpr ⟨c, hc, ?_⟩
  rw [hm]

/-- Inversion for a successful `update` on a fetched value: the new sensor
and the fired events in terms of the loop's output. -/
theorem update_got_ok {dist : Dist} {s : Sensor} {t : Bool}
    {recs : List (List V)} {s' : Sensor} {evs : List Event}
    (h : update dist s (Fetch.got t recs) = Except.ok (s', evs)) :
    ∃ tr m, (if t then processAll dist s recs ([], emptyMeta)
             else Except.ok ([], emptyMeta)) = Except.ok (tr, m) ∧
      s' = { s with state := tr.length, previously_tracked := some tr } ∧
      evs = (match s.previously_tracked with
        | none => []
        | some prev =>
          handleBoundary s (tr.filter fun c => decide (c ∉ prev)) EvKind.entry m ++
          handleBoundary s (prev.filter fun c => decide (c ∉ tr)) EvKind.exit m) := by
  simp only [update] at h
  cases hp : (if t then processAll dist s recs ([], emptyMeta)
              else Except.ok (([] : List String), emptyMeta)) with
  | error e => simp only [hp] at h; exact Except.noConfusion h
  | ok out =>
    obtain ⟨tr, m⟩ := out
    simp only [hp, Except.ok.injEq, Prod.mk.injEq] at h
    obtain ⟨hs, hev⟩ := h
    exact ⟨tr, m, rfl, hs.symm, hev.symm⟩

/-! ### Helper lemmas about the bounding box -/

theorem degreesD_le_degreesD {a b : ℝ} (h : a ≤ b) : degreesD a ≤ degreesD b := by
  unfold degreesD
  have hπ : (0:ℝ) ≤ 180 / Real.pi := by positivity
  exact mul_le_mul_of_nonneg_right h hπ

theorem degreesD_lt_degreesD {a b : ℝ} (h : a < b) : degreesD a < degreesD b := by
  unfold degreesD
  have hπ : (0:ℝ) < 180 / Real.pi := by positivity
  exact mul_lt_mul_of_pos_right h hπ

theorem degreesD_lt_iff {a c : ℝ} : degreesD a < c ↔ a * 180 < c * Real.pi := by
  unfold degreesD
  rw [show a * (180 / Real.pi) = a * 180 / Real.pi by ring,
    div_lt_iff Real.pi_pos]

theorem lt_degreesD_iff {a c : ℝ} : c < degreesD a ↔ c * Real.pi < a * 180 := by
  unfold degreesD
  rw [show a * (180 / Real.pi) = a * 180 / Real.pi by ring,
    lt_div_iff Real.pi_pos]

/-- When neither longitude branch fires, `_get_bbox` is the plain
unwrapped box. -/
theorem get_bbox_no_wrap (latitude longitude radius : ℝ)
    (hlo : -Real.pi ≤ radiansD longitude -
      radius / 1000 / (6371 * Real.cos (radiansD latitude)))
    (hhi : radiansD longitude +
      radius / 1000 / (6371 * Real.cos (radiansD latitude)) ≤ Real.pi) :
    get_bbox latitude longitude radius =
      (degreesD (max (-(Real.pi / 2)) (radiansD latitude - radius / 1000 / 6371)),
       degreesD (radiansD longitude -
         radius / 1000 / (6371 * Real.cos (radiansD latitude))),
       degreesD (min (Real.pi / 2) (radiansD latitude + radius / 1000 / 6371)),
       degreesD (radiansD longitude +
         radius / 1000 / (6371 * Real.cos (radiansD latitude)))) := by
  simp only [get_bbox]
  rw [if_neg (not_lt.mpr hlo), if_neg (not_lt.mpr hhi)]

/-- At latitude 0, with a radius large enough that only the `lon_max > π`
branch fires, `_get_bbox` mirrors the east edge to `2π − (lon + dLon)`. -/
theorem get_bbox_lat0_wrap (longitude radius : ℝ)
    (hlo : -Real.pi ≤ radiansD longitude - radius / 1000 / 6371)
    (h1 : Real.pi < radiansD longitude + radius / 1000 / 6371)
    (h2 : radiansD longitude + radius / 1000 / 6371 < 2 * Real.pi) :
    (get_bbox 0 longitude radius).2.1 =
      degreesD (radiansD longitude - radius / 1000 / 6371) ∧
    (get_bbox 0 longitude radius).2.2.2 =
      degreesD (2 * Real.pi - (radiansD longitude + radius / 1000 / 6371)) := by
  have hc : Real.cos (radiansD 0) = 1 := by
    rw [show radiansD 0 = 0 by unfold radiansD; ring]
    exact Real.cos_zero
  have hπ := Real.pi_pos
  have hfloor : ⌊(radiansD longitude + radius / 1000 / 6371) / Real.pi⌋ = 1 := by
    rw [Int.floor_eq_iff]
    constructor
    · push_cast
      rw [le_div_iff hπ]
      linarith
    · push_cast
      rw [div_lt_iff hπ]
      linarith
  have hmod : Real.pi - pymod (radiansD longitude + radius / 1000 / 6371) Real.pi
      = 2 * Real.pi - (radiansD longitude + radius / 1000 / 6371) := by
    unfold pymod
    rw [hfloor]
    push_cast
    ring
  constructor
  · simp only [get_bbox, hc, mul_one]
    rw [if_neg (not_lt.mpr hlo)]
  · simp only [get_bbox, hc, mul_one]
    rw [if_pos h1, hmod]

/-! ### Concrete fixtures used by witnesses and counterexamples -/

/-- A distance oracle that reports every point at distance 0 from the
center. -/
def distZero : Dist := fun _ _ _ _ => some 0

/-- A sensor before its first poll: center (0, 0), radius 1000 m, no
altitude ceiling. -/
def s0c : Sensor :=
  { name := "opensky", latitude := 0, longitude := 0, radius := 1000,
    altitude := 0, state := 0, previously_tracked := none,
    lat_min := 0, lon_min := 0, lat_max := 0, lon_max := 0 }

/-- The same sensor already tracking callsign `A`. -/
def s1c : Sensor := { s0c with state := 1, previously_tracked := some ["A"] }

/-- The same sensor already tracking callsigns `A` and `B`. -/
def sABc : Sensor :=
  { s0c with state := 2, previously_tracked := some ["A", "B"] }

/-- The sensor with a 1000 m altitude ceiling. -/
def s2c : Sensor := { s0c with altitude := 1000 }

/-- A record for callsign `A` that passes every inclusion filter. -/
def r1c : List V :=
  [V.str "x", V.str "A", V.null, V.null, V.null, V.num 1, V.num 1,
   V.num 10, V.bool false]

/-- A record for callsign `A` that is on the ground (fails the filter). -/
def r2c : List V :=
  [V.str "y", V.str "A", V.null, V.null, V.null, V.num 1, V.num 1,
   V.num 10, V.bool true]

/-- A qualifying record for callsign `B`. -/
def rBc : List V :=
  [V.str "xB", V.str "B", V.null, V.null, V.null, V.num 1, V.num 1,
   V.num 10, V.bool false]

/-- A qualifying record for callsign `C`. -/
def rCc : List V :=
  [V.str "xC", V.str "C", V.null, V.null, V.null, V.num 1, V.num 1,
   V.num 10, V.bool false]

/-- A short record (5 fields): callsign `A`, longitude onwards absent. -/
def rShort : List V := [V.str "x", V.str "A", V.null, V.null, V.null]

/-- A record at altitude 1500 for callsign `A`, otherwise qualifying. -/
def rHi : List V :=
  [V.str "x", V.str "A", V.null, V.null, V.null, V.num 1, V.num 1,
   V.num 1500, V.bool false]

/-- A record at altitude exactly 1000 for callsign `A`, otherwise
qualifying. -/
def rEq : List V :=
  [V.str "x", V.str "A", V.null, V.null, V.null, V.num 1, V.num 1,
   V.num 1000, V.bool false]

/-! ### The claims -/

/-- C1 counterexample: a fetched response whose parsed body lacks the
`"states"` key reaches the rest of `update` as a falsy value
(`Fetch.got false []`), and the call does NOT leave the state unchanged:
with `A` previously tracked, the tracked set is replaced by the empty set,
the count drops from 1 to 0, and an EXIT event for `A` fires — contradicting
the claim that such a failure leaves the tracked set, count and metadata
unchanged and fires no events. -/
theorem claim_C1_cex :
    update distZero s1c (Fetch.got false []) =
      Except.ok ({ s1c with state := 0, previously_tracked := some [] },
        [{ kind := EvKind.exit, callsign := "A", altitude := V.num 0,
           sensor := "opensky", longitude := V.null, latitude := V.null,
           icao24 := V.null }]) ∧
    some ([] : List String) ≠ s1c.previously_tracked ∧
    (0 : ℕ) ≠ s1c.state := by
  refine ⟨rfl, by decide, by decide⟩

/-- C1 (amended): a network error raised by the fetch itself propagates out
of `update` (so state is untouched and no event fires), but a caught
parse failure or a missing/empty `"states"` key — a falsy `states` value —
is processed as an empty batch: the count is set to 0, the tracked set is
replaced by the empty set, and one EXIT event (with `altitude = 0` and null
position fields, since the cycle metadata is empty) fires for every
previously tracked callsign. -/
theorem claim_C1 (dist : Dist) (s : Sensor) (recs : List (List V))
    (prev : List String) :
    update dist s Fetch.netError = Except.error PyErr.netError ∧
    (s.previously_tracked = some prev →
      update dist s (Fetch.got false recs) =
        Except.ok ({ s with state := 0, previously_tracked := some [] },
          handleBoundary s prev EvKind.exit emptyMeta)) ∧
    (s.previously_tracked = none →
      update dist s (Fetch.got false recs) =
        Except.ok ({ s with state := 0, previously_tracked := some [] },
          [])) := by
  have hfilter : prev.filter (fun c => decide (c ∉ ([] : List String))) = prev :=
    List.filter_eq_self.mpr fun a _ => by simp
  refine ⟨rfl, ?_, ?_⟩
  · intro hp
    simp only [update, Bool.false_eq_true, if_false, hp, List.filter_nil,
      List.length_nil, hfilter]
    rw [show handleBoundary s [] EvKind.entry emptyMeta = [] from rfl]
    rw [List.nil_append]
  · intro hp
    simp only [update, Bool.false_eq_true, if_false, hp, List.length_nil]

/-- C1 witness: the amended statement applied to the concrete sensor
tracking `A`. -/
theorem claim_C1_w :
    s1c.previously_tracked = some ["A"] ∧
    update distZero s1c (Fetch.got false []) =
      Except.ok ({ s1c with state := 0, previously_tracked := some [] },
        handleBoundary s1c ["A"] EvKind.exit emptyMeta) :=
  ⟨rfl, (claim_C1 distZero s1c [] ["A"]).2.1 rfl⟩

/-- C3 counterexample: callsign `A` occurs twice in one batch; the first
record qualifies (so `A` enters the tracked set) and the last one is on the
ground, and last-record-wins leaves the non-qualifying record in the
metadata. The tracked set is then NOT the set of callsigns whose stored
metadata record passes the filters: `A` is tracked although its metadata
record fails the on-ground filter. -/
theorem claim_C3_cex :
    processAll distZero s0c [r1c, r2c] ([], emptyMeta) =
      Except.ok (["A"], minsert (minsert emptyMeta "A" r1c) "A" r2c) ∧
    "A" ∈ (["A"] : List String) ∧
    minsert (minsert emptyMeta "A" r1c) "A" r2c "A" = some r2c ∧
    qualifies distZero s0c r2c = Except.ok false := by
  exact ⟨rfl, by decide, rfl, rfl⟩

/-- C3 (amended): when the non-blank trimmed callsigns of the batch are
pairwise distinct, the tracked set installed by a completed `update` is
exactly the set of callsigns whose stored record in that cycle's metadata
passes all inclusion filters. (With a repeated callsign the code may track
a callsign whose surviving metadata record fails the filters, as the
counterexample shows.) -/
theorem claim_C3 (dist : Dist) (s : Sensor) (recs : List (List V))
    (s' : Sensor) (evs : List Event)
    (hnd : (cssOf recs).Nodup)
    (h : update dist s (Fetch.got true recs) = Except.ok (s', evs)) :
    ∃ tr m, processAll dist s recs ([], emptyMeta) = Except.ok (tr, m) ∧
      s'.previously_tracked = some tr ∧
      ∀ c, c ∈ tr ↔ ∃ fl, m c = some fl ∧
        qualifies dist s fl = Except.ok true := by
  obtain ⟨tr, m, hpm, hs, hev⟩ := update_got_ok h
  rw [if_pos rfl] at hpm
  refine ⟨tr, m, hpm, by rw [hs], ?_⟩
  exact processAll_inv hpm hnd (fun c _ => rfl) (fun c => by simp [emptyMeta])

/-- C3 witness: the amended statement applied to a singleton batch. -/
theorem claim_C3_w :
    (cssOf [r1c]).Nodup ∧
    ∃ tr m, processAll distZero s0c [r1c] ([], emptyMeta) = Except.ok (tr, m) ∧
      some ["A"] = some tr ∧
      ∀ c, c ∈ tr ↔ ∃ fl, m c = some fl ∧
        qualifies distZero s0c fl = Except.ok true :=
  ⟨by decide, claim_C3 distZero s0c [r1c] _ [] (by decide) rfl⟩

/-- C4 counterexample: a record with a single field has no callsign entry,
so `flight[ATTR_CALLSIGN]` raises `KeyError` and the whole update aborts —
contradicting the claim that malformed records never raise and never abort
the update. -/
theorem claim_C4_cex :
    update distZero s0c (Fetch.got true [[V.str "x"]]) =
      Except.error PyErr.keyError := rfl

/-- C4 (amended): records carrying a string in the callsign position and
nothing string-valued in the longitude/latitude/altitude positions never
abort the update, however short: missing trailing fields behave as null,
such records fail the presence filters (they contribute to the tracked set
only through some qualifying record of the same callsign) and are still
recorded in metadata whenever the trimmed callsign is non-blank. A record
missing the callsign field, or with a non-string callsign, or with a
string where the distance/ceiling checks need a number, raises and aborts
the whole update, as the counterexample shows. -/
theorem claim_C4 (dist : Dist) (s : Sensor) (t : Bool) (recs : List (List V))
    (hgood : ∀ r ∈ recs,
      csOK r ∧ numOK (fget r 5) ∧ numOK (fget r 6) ∧ numOK (fget r 7)) :
    (∃ s' evs, update dist s (Fetch.got t recs) = Except.ok (s', evs)) ∧
    ∀ tr m, processAll dist s recs ([], emptyMeta) = Except.ok (tr, m) →
      (∀ r ∈ recs, ∀ c, callsignOf r = Except.ok c → c ≠ "" →
        ∃ fl, m c = some fl) ∧
      (∀ c, c ∈ tr → ∃ r ∈ recs, callsignOf r = Except.ok c ∧ c ≠ "" ∧
        qualifies dist s r = Except.ok true) := by
  constructor
  · have hok : ∃ trm, (if t then processAll dist s recs ([], emptyMeta)
        else Except.ok (([] : List String), emptyMeta)) = Except.ok trm := by
      cases t with
      | true =>
        obtain ⟨out, hout⟩ := @processAll_ok_of_good dist s recs
          ([], emptyMeta) hgood
        exact ⟨out, by rw [if_pos rfl]; exact hout⟩
      | false => exact ⟨([], emptyMeta), by rw [if_neg (by simp)]⟩
    obtain ⟨⟨tr, m⟩, htrm⟩ := hok
    refine ⟨{ s with state := tr.length, previously_tracked := some tr },
      (match s.previously_tracked with
       | none => []
       | some prev =>
         handleBoundary s (tr.filter fun c => decide (c ∉ prev)) EvKind.entry m ++
         handleBoundary s (prev.filter fun c => decide (c ∉ tr)) EvKind.exit m),
      ?_⟩
    simp only [update, htrm]
  · intro tr m hm
    constructor
    · intro r hr c hc hne
      exact processAll_meta_some hm c (Or.inr ⟨r, hr, hc, hne⟩)
    · intro c hc
      rcases (processAll_mem hm c).mp hc with hin | hex
      · exact absurd hin (List.not_mem_nil c)
      · exact hex

/-- C4 witness: the amended statement applied to a batch holding one short
(5-field) record: the update completes and the record is in metadata. -/
theorem claim_C4_w :
    (∀ r ∈ [rShort],
      csOK r ∧ numOK (fget r 5) ∧ numOK (fget r 6) ∧ numOK (fget r 7)) ∧
    ((∃ s' evs, update distZero s0c (Fetch.got true [rShort]) =
        Except.ok (s', evs)) ∧
     ∀ tr m, processAll distZero s0c [rShort] ([], emptyMeta) =
        Except.ok (tr, m) →
      (∀ r ∈ [rShort], ∀ c, callsignOf r = Except.ok c → c ≠ "" →
        ∃ fl, m c = some fl) ∧
      (∀ c, c ∈ tr → ∃ r ∈ [rShort], callsignOf r = Except.ok c ∧ c ≠ "" ∧
        qualifies distZero s0c r = Except.ok true)) :=
  ⟨by decide, claim_C4 distZero s0c true [rShort] (by decide)⟩

/-- C5: when a previous tracked set exists, a completed `update` fires the
events as one entry block followed by one exit block; the entry callsigns
are exactly the current set minus the previous set (each once), the exit
callsigns exactly the previous minus the current (each once), and no
callsign occurs in both blocks. -/
theorem claim_C5 (dist : Dist) (s : Sensor) (t : Bool) (recs : List (List V))
    (prev : List String) (s' : Sensor) (evs : List Event) (cur : List String)
    (hp : s.previously_tracked = some prev) (hnd : prev.Nodup)
    (h : update dist s (Fetch.got t recs) = Except.ok (s', evs))
    (hcur : s'.previously_tracked = some cur) :
    ∃ en ex, evs = en ++ ex ∧
      (∀ e ∈ en, e.kind = EvKind.entry) ∧
      (∀ e ∈ ex, e.kind = EvKind.exit) ∧
      (en.map Event.callsign).Nodup ∧ (ex.map Event.callsign).Nodup ∧
      (∀ c, c ∈ en.map Event.callsign ↔ c ∈ cur ∧ c ∉ prev) ∧
      (∀ c, c ∈ ex.map Event.callsign ↔ c ∈ prev ∧ c ∉ cur) ∧
      (∀ c, ¬(c ∈ en.map Event.callsign ∧ c ∈ ex.map Event.callsign)) := by
  obtain ⟨tr, m, hpm, hs, hev⟩ := update_got_ok h
  have hcurtr : cur = tr := by
    rw [hs] at hcur
    exact (Option.some.inj hcur).symm
  subst hcurtr
  have hnodtr : cur.Nodup := by
    cases t with
    | true =>
      rw [if_pos rfl] at hpm
      exact processAll_nodup hpm List.nodup_nil
    | false =>
      rw [if_neg (by simp)] at hpm
      simp only [Except.ok.injEq, Prod.mk.injEq] at hpm
      rw [← hpm.1]
      exact List.nodup_nil
  rw [hp] at hev
  refine ⟨handleBoundary s (cur.filter fun c => decide (c ∉ prev)) EvKind.entry m,
    handleBoundary s (prev.filter fun c => decide (c ∉ cur)) EvKind.exit m,
    hev, fun e he => handleBoundary_kind he, fun e he => handleBoundary_kind he,
    ?_, ?_, ?_, ?_, ?_⟩
  · rw [handleBoundary_map_callsign]
    exact List.Nodup.filter _ hnodtr
  · rw [handleBoundary_map_callsign]
    exact List.Nodup.filter _ hnd
  · intro c
    rw [handleBoundary_map_callsign]
    simp [List.mem_filter]
  · intro c
    rw [handleBoundary_map_callsign]
    simp [List.mem_filter]
  · intro c
    rw [handleBoundary_map_callsign, handleBoundary_map_callsign]
    simp only [List.mem_filter, decide_eq_true_eq]
    rintro ⟨⟨-, hnotp⟩, ⟨hinp, -⟩⟩
    exact hnotp hinp

/-- C5 witness: previous set `{A, B}`, current qualifying records `B`, `C`:
one ENTRY for `C` then one EXIT for `A`. -/
theorem claim_C5_w :
    sABc.previously_tracked = some ["A", "B"] ∧
    (["A", "B"] : List String).Nodup ∧
    ∃ en ex,
      [({ kind := EvKind.entry, callsign := "C", altitude := V.num 10,
          sensor := "opensky", longitude := V.num 1, latitude := V.num 1,
          icao24 := V.str "xC" } : Event),
       ({ kind := EvKind.exit, callsign := "A", altitude := V.num 0,
          sensor := "opensky", longitude := V.null, latitude := V.null,
          icao24 := V.null } : Event)] = en ++ ex ∧
      (∀ e ∈ en, e.kind = EvKind.entry) ∧
      (∀ e ∈ ex, e.kind = EvKind.exit) ∧
      (en.map Event.callsign).Nodup ∧ (ex.map Event.callsign).Nodup ∧
      (∀ c, c ∈ en.map Event.callsign ↔ c ∈ ["B", "C"] ∧ c ∉ ["A", "B"]) ∧
      (∀ c, c ∈ ex.map Event.callsign ↔ c ∈ ["A", "B"] ∧ c ∉ ["B", "C"]) ∧
      (∀ c, ¬(c ∈ en.map Event.callsign ∧ c ∈ ex.map Event.callsign)) :=
  ⟨rfl, by decide,
    claim_C5 distZero sABc true [rBc, rCc] ["A", "B"] _ _ ["B", "C"]
      rfl (by decide) rfl rfl⟩

/-- C7: on the very first call (`previously_tracked` unset) a completed
`update` fires no events at all, and when the batch consists of qualifying
records with pairwise-distinct non-blank callsigns the resulting count is
the batch length. -/
theorem claim_C7 (dist : Dist) (s : Sensor) (f : Fetch) (recs : List (List V))
    (css : List String) (s' : Sensor) (evs : List Event)
    (hprev : s.previously_tracked = none)
    (h : update dist s f = Except.ok (s', evs)) :
    evs = [] ∧
    (f = Fetch.got true recs →
     List.Forall₂ (fun r c => callsignOf r = Except.ok c ∧ c ≠ "" ∧
       qualifies dist s r = Except.ok true) recs css →
     css.Nodup → s'.state = recs.length) := by
  cases f with
  | netError => simp only [update] at h; exact Except.noConfusion h
  | got t recs₀ =>
    obtain ⟨tr, m, hpm, hs, hev⟩ := update_got_ok h
    constructor
    · rw [hev, hprev]
    · intro heq hf hnd
      injection heq with ht hrecs
      subst ht
      subst hrecs
      rw [if_pos rfl] at hpm
      have htr : tr = [] ++ css :=
        processAll_all_qualify hf hnd (fun c _ => List.not_mem_nil c) hpm
      rw [hs]
      simp only [htr, List.nil_append]
      exact (List.Forall₂.length_eq hf).symm

/-- C7 witness: first poll with one qualifying record yields no events and
count 1. -/
theorem claim_C7_w :
    s0c.previously_tracked = none ∧
    (([] : List Event) = [] ∧
     (Fetch.got true [r1c] = Fetch.got true [r1c] →
      List.Forall₂ (fun r c => callsignOf r = Except.ok c ∧ c ≠ "" ∧
        qualifies distZero s0c r = Except.ok true) [r1c] ["A"] →
      (["A"] : List String).Nodup →
      ({ s0c with state := 1, previously_tracked := some ["A"] } : Sensor).state = [r1c].length)) :=
  ⟨rfl, claim_C7 distZero s0c (Fetch.got true [r1c]) [r1c] ["A"] _ [] rfl rfl⟩

/-- C8: for a record passing every filter before the altitude-ceiling test,
a zero ceiling admits any altitude; a positive ceiling excludes a strictly
greater altitude and admits an altitude exactly equal to the ceiling. -/
theorem claim_C8 (dist : Dist) (s : Sensor) (r : List V) (c : String)
    (lo la d a : ℚ)
    (hcs : callsignOf r = Except.ok c) (hc : c ≠ "")
    (hlon : fget r 5 = V.num lo) (hlat : fget r 6 = V.num la)
    (hg : truthy (fget r 8) = false)
    (hd : dist s.latitude s.longitude la lo = some d) (hdr : d ≤ s.radius)
    (halt : fget r 7 = V.num a) :
    (s.altitude = 0 →
      ∃ s' evs, update dist s (Fetch.got true [r]) = Except.ok (s', evs) ∧
        s'.previously_tracked = some [c]) ∧
    (0 < s.altitude → s.altitude < a →
      ∃ s' evs, update dist s (Fetch.got true [r]) = Except.ok (s', evs) ∧
        s'.previously_tracked = some []) ∧
    (0 < s.altitude → a = s.altitude →
      ∃ s' evs, update dist s (Fetch.got true [r]) = Except.ok (s', evs) ∧
        s'.previously_tracked = some [c]) := by
  have hq : qualifies dist s r =
      Except.ok (!(decide (s.altitude < a) && decide (s.altitude ≠ 0))) := by
    simp only [qualifies, hlon, hlat, hg, hd, halt, asNum, pyGT]
    rw [if_neg (by simp), if_neg (by simp), if_neg (Bool.false_ne_true),
      if_neg (not_lt.mpr hdr), if_neg (by simp)]
  have hpa : ∀ b, qualifies dist s r = Except.ok b →
      processAll dist s [r] ([], emptyMeta) =
        Except.ok ((if b then [c] else []), minsert emptyMeta c r) := by
    intro b hb
    unfold processAll
    rw [show processRecord dist s ([], emptyMeta) r =
          Except.ok ((if b then addTracked [] c else []), minsert emptyMeta c r) by
        simp only [processRecord, hcs, if_neg hc, hb]]
    cases b with
    | true =>
      rw [if_pos rfl, if_pos rfl, show addTracked [] c = [c] by simp [addTracked]]
      rfl
    | false => rfl
  have hupd : ∀ tr m, processAll dist s [r] ([], emptyMeta) = Except.ok (tr, m) →
      update dist s (Fetch.got true [r]) = Except.ok
        ({ s with state := tr.length, previously_tracked := some tr },
         match s.previously_tracked with
         | none => []
         | some prev =>
           handleBoundary s (tr.filter fun c' => decide (c' ∉ prev)) EvKind.entry m ++
           handleBoundary s (prev.filter fun c' => decide (c' ∉ tr)) EvKind.exit m) := by
    intro tr m hpm
    simp only [update, if_true, hpm]
  refine ⟨?_, ?_, ?_⟩
  · intro h0
    have hb : (!(decide (s.altitude < a) && decide (s.altitude ≠ 0))) = true := by
      simp [h0]
    have := hpa _ (hq.trans (by rw [hb]))
    rw [if_pos rfl] at this
    exact ⟨_, _, hupd _ _ this, rfl⟩
  · intro hpos hlt
    have hb : (!(decide (s.altitude < a) && decide (s.altitude ≠ 0))) = false := by
      simp [hlt, ne_of_gt hpos]
    have := hpa _ (hq.trans (by rw [hb]))
    rw [if_neg (by simp)] at this
    exact ⟨_, _, hupd _ _ this, rfl⟩
  · intro hpos heq
    have hb : (!(decide (s.altitude < a) && decide (s.altitude ≠ 0))) = true := by
      simp [heq]
    have := hpa _ (hq.trans (by rw [hb]))
    rw [if_pos rfl] at this
    exact ⟨_, _, hupd _ _ this, rfl⟩

/-- C8 witness: with ceiling 0 an altitude-10 record is tracked; with
ceiling 1000 an altitude-1500 record is excluded and an altitude-1000
record is tracked. -/
theorem claim_C8_w :
    (∃ s' evs, update distZero s0c (Fetch.got true [r1c]) =
        Except.ok (s', evs) ∧ s'.previously_tracked = some ["A"]) ∧
    (∃ s' evs, update distZero s2c (Fetch.got true [rHi]) =
        Except.ok (s', evs) ∧ s'.previously_tracked = some []) ∧
    (∃ s' evs, update distZero s2c (Fetch.got true [rEq]) =
        Except.ok (s', evs) ∧ s'.previously_tracked = some ["A"]) :=
  ⟨(claim_C8 distZero s0c r1c "A" 1 1 0 10 rfl (by decide) rfl rfl rfl rfl
      (by norm_num [s0c]) rfl).1 rfl,
   (claim_C8 distZero s2c rHi "A" 1 1 0 1500 rfl (by decide) rfl rfl rfl rfl
      (by norm_num [s2c, s0c]) rfl).2.1 (by norm_num [s2c, s0c])
      (by norm_num [s2c, s0c]),
   (claim_C8 distZero s2c rEq "A" 1 1 0 1000 rfl (by decide) rfl rfl rfl rfl
      (by norm_num [s2c, s0c]) rfl).2.2 (by norm_num [s2c, s0c])
      (by norm_num [s2c, s0c])⟩

/-- C9: a callsign in the previous tracked set carried by no record of the
current batch (so absent from this cycle's metadata) still gets an EXIT
event, and that event carries `altitude = 0` and null longitude, latitude
and icao24. -/
theorem claim_C9 (dist : Dist) (s : Sensor) (t : Bool) (recs : List (List V))
    (prev : List String) (c : String) (s' : Sensor) (evs : List Event)
    (hp : s.previously_tracked = some prev) (hc : c ∈ prev)
    (habs : ∀ r ∈ recs, ∀ x, callsignOf r = Except.ok x → x ≠ c)
    (h : update dist s (Fetch.got t recs) = Except.ok (s', evs)) :
    ({ kind := EvKind.exit, callsign := c, altitude := V.num 0,
       sensor := s.name, longitude := V.null, latitude := V.null,
       icao24 := V.null } : Event) ∈ evs := by
  obtain ⟨tr, m, hpm, hs, hev⟩ := update_got_ok h
  have hmc : m c = none ∧ c ∉ tr := by
    cases t with
    | true =>
      rw [if_pos rfl] at hpm
      constructor
      · have := processAll_meta_untouched hpm habs
        simpa [emptyMeta] using this
      · intro hctr
        rcases (processAll_mem hpm c).mp hctr with hin | ⟨r, hrm, hrc, -, -⟩
        · exact List.not_mem_nil c hin
        · exact habs r hrm c hrc rfl
    | false =>
      rw [if_neg (by simp)] at hpm
      simp only [Except.ok.injEq, Prod.mk.injEq] at hpm
      obtain ⟨h1, h2⟩ := hpm
      exact ⟨by rw [← h2]; rfl, by rw [← h1]; exact List.not_mem_nil c⟩
  rw [hev, hp]
  refine List.mem_append.mpr (Or.inr ?_)
  exact handleBoundary_mem_none
    (List.mem_filter.mpr ⟨hc, by simpa using hmc.2⟩) hmc.1

/-- C9 witness: `A` was tracked, the new batch only carries `B`: the fired
events contain the EXIT event for `A` with altitude 0 and null fields. -/
theorem claim_C9_w :
    s1c.previously_tracked = some ["A"] ∧ "A" ∈ (["A"] : List String) ∧
    ({ kind := EvKind.exit, callsign := "A", altitude := V.num 0,
       sensor := "opensky", longitude := V.null, latitude := V.null,
       icao24 := V.null } : Event) ∈
      [({ kind := EvKind.entry, callsign := "B", altitude := V.num 10,
          sensor := "opensky", longitude := V.num 1, latitude := V.num 1,
          icao24 := V.str "xB" } : Event),
       ({ kind := EvKind.exit, callsign := "A", altitude := V.num 0,
          sensor := "opensky", longitude := V.null, latitude := V.null,
          icao24 := V.null } : Event)] :=
  ⟨rfl, by decide,
    claim_C9 distZero s1c true [rBc] ["A"] "A" _ _ rfl (by decide)
      (by
        intro r hr x hx
        rw [List.mem_singleton] at hr
        subst hr
        rw [show callsignOf rBc = Except.ok "B" from rfl] at hx
        cases hx
        decide)
      rfl⟩

/-- C10: after every completed `update` the exposed count equals the size
of the installed tracked set (which is duplicate-free); the new tracked set
is computed from the batch alone (the same set is installed whatever
`previously_tracked` held before); and the center coordinates, radius,
altitude ceiling, name and the four precomputed bounding-box fields are
unchanged. -/
theorem claim_C10 (dist : Dist) (s : Sensor) (f : Fetch) (s' : Sensor)
    (evs : List Event) (h : update dist s f = Except.ok (s', evs)) :
    (∃ cur, s'.previously_tracked = some cur ∧ cur.Nodup ∧
      s'.state = cur.length) ∧
    s'.name = s.name ∧ s'.latitude = s.latitude ∧
    s'.longitude = s.longitude ∧ s'.radius = s.radius ∧
    s'.altitude = s.altitude ∧ s'.lat_min = s.lat_min ∧
    s'.lon_min = s.lon_min ∧ s'.lat_max = s.lat_max ∧
    s'.lon_max = s.lon_max ∧
    (∀ p, ∃ s₂ evs₂,
      update dist { s with previously_tracked := p } f = Except.ok (s₂, evs₂) ∧
      s₂.previously_tracked = s'.previously_tracked) := by
  cases f with
  | netError => simp only [update] at h; exact Except.noConfusion h
  | got t recs =>
    obtain ⟨tr, m, hpm, hs, hev⟩ := update_got_ok h
    subst hs
    have hnodtr : tr.Nodup := by
      cases t with
      | true =>
        rw [if_pos rfl] at hpm
        exact processAll_nodup hpm List.nodup_nil
      | false =>
        rw [if_neg (by simp)] at hpm
        simp only [Except.ok.injEq, Prod.mk.injEq] at hpm
        rw [← hpm.1]
        exact List.nodup_nil
    refine ⟨⟨tr, rfl, hnodtr, rfl⟩, rfl, rfl, rfl, rfl, rfl, rfl, rfl, rfl,
      rfl, ?_⟩
    intro p
    have hpm₂ : (if t then
          processAll dist { s with previously_tracked := p } recs ([], emptyMeta)
        else Except.ok (([] : List String), emptyMeta)) = Except.ok (tr, m) := by
      cases t with
      | true =>
        rw [if_pos rfl] at hpm ⊢
        rw [processAll_prev_irrel]
        exact hpm
      | false =>
        rw [if_neg (by simp)] at hpm ⊢
        exact hpm
    refine ⟨{ s with state := tr.length, previously_tracked := some tr },
      (match p with
       | none => []
       | some prev =>
         handleBoundary { s with previously_tracked := p }
           (tr.filter fun c => decide (c ∉ prev)) EvKind.entry m ++
         handleBoundary { s with previously_tracked := p }
           (prev.filter fun c => decide (c ∉ tr)) EvKind.exit m),
      ?_, rfl⟩
    simp only [update, hpm₂]
    cases p <;> rfl

/-- C10 witness: the invariants applied to a first poll tracking `A`. -/
theorem claim_C10_w :
    (∃ cur, some ["A"] = some cur ∧ cur.Nodup ∧ 1 = cur.length) ∧
    "opensky" = s0c.name ∧ (0 : ℚ) = s0c.latitude ∧ (0 : ℚ) = s0c.longitude ∧
    (1000 : ℚ) = s0c.radius ∧ (0 : ℚ) = s0c.altitude ∧ (0 : ℝ) = s0c.lat_min ∧
    (0 : ℝ) = s0c.lon_min ∧ (0 : ℝ) = s0c.lat_max ∧ (0 : ℝ) = s0c.lon_max ∧
    (∀ p, ∃ s₂ evs₂,
      update distZero { s0c with previously_tracked := p }
        (Fetch.got true [r1c]) = Except.ok (s₂, evs₂) ∧
      s₂.previously_tracked = some ["A"]) :=
  claim_C10 distZero s0c (Fetch.got true [r1c]) _ _ rfl

/-- C2: the antimeridian handling of `_get_bbox` is wrong. At center
(0°, 179°) with radius 300 km, `lonRad + dLon` exceeds π and the wrap
branch fires, but `π − (lon_max % π)` evaluates to `2π − (lonRad + dLon)`
(the mirror image, ≈ +178.30°) instead of the claimed
`lonRad + dLon − 2π` (≈ −178.30°): the computed `lon_max` is positive
while the claimed wrapped value is negative, and the resulting box
`[lon_min, lon_max]` is an ordinary non-wrapping interval that does not
contain the center longitude 179° at all. -/
theorem claim_C2 :
    (get_bbox 0 179 300000).2.1 ≤ (get_bbox 0 179 300000).2.2.2 ∧
    (get_bbox 0 179 300000).2.2.2 < 179 ∧
    0 < (get_bbox 0 179 300000).2.2.2 ∧
    degreesD (radiansD 179 + 300000 / 1000 / 6371 - 2 * Real.pi) < 0 := by
  have hπ₁ : (3.141592 : ℝ) < Real.pi := Real.pi_gt_3141592
  have hπ₂ : Real.pi < 3.141593 := Real.pi_lt_3141593
  have hlon : radiansD 179 = 179 * (Real.pi / 180) := rfl
  have hlo : -Real.pi ≤ radiansD 179 - 300000 / 1000 / 6371 := by
    rw [hlon]
    nlinarith
  have h1 : Real.pi < radiansD 179 + 300000 / 1000 / 6371 := by
    rw [hlon]
    nlinarith
  have h2 : radiansD 179 + 300000 / 1000 / 6371 < 2 * Real.pi := by
    rw [hlon]
    nlinarith
  obtain ⟨hmin, hmax⟩ := get_bbox_lat0_wrap 179 300000 hlo h1 h2
  refine ⟨?_, ?_, ?_, ?_⟩
  · rw [hmin, hmax]
    apply degreesD_le_degreesD
    rw [hlon]
    nlinarith
  · rw [hmax, degreesD_lt_iff, hlon]
    nlinarith
  · rw [hmax, lt_degreesD_iff, hlon]
    nlinarith
  · rw [degreesD_lt_iff, hlon]
    nlinarith

/-- C6 counterexample: at center (0°, 179°), doubling the radius from
300 km to 600 km SHRINKS the box's east edge (the mirrored `lon_max`
moves from ≈178.30° down to ≈175.60°) while both boxes are plain
non-wrapping intervals, so the doubled box does not contain the original
box. -/
theorem claim_C6_cex :
    (get_bbox 0 179 (2 * 300000)).2.1 ≤ (get_bbox 0 179 (2 * 300000)).2.2.2 ∧
    (get_bbox 0 179 (2 * 300000)).2.2.2 < (get_bbox 0 179 300000).2.2.2 := by
  have hπ₁ : (3.141592 : ℝ) < Real.pi := Real.pi_gt_3141592
  have hπ₂ : Real.pi < 3.141593 := Real.pi_lt_3141593
  have hlon : radiansD 179 = 179 * (Real.pi / 180) := rfl
  have hlo : -Real.pi ≤ radiansD 179 - 300000 / 1000 / 6371 := by
    rw [hlon]; nlinarith
  have h1 : Real.pi < radiansD 179 + 300000 / 1000 / 6371 := by
    rw [hlon]; nlinarith
  have h2 : radiansD 179 + 300000 / 1000 / 6371 < 2 * Real.pi := by
    rw [hlon]; nlinarith
  have hlo' : -Real.pi ≤ radiansD 179 - 2 * 300000 / 1000 / 6371 := by
    rw [hlon]; nlinarith
  have h1' : Real.pi < radiansD 179 + 2 * 300000 / 1000 / 6371 := by
    rw [hlon]; nlinarith
  have h2' : radiansD 179 + 2 * 300000 / 1000 / 6371 < 2 * Real.pi := by
    rw [hlon]; nlinarith
  obtain ⟨hmin, hmax⟩ := get_bbox_lat0_wrap 179 300000 hlo h1 h2
  obtain ⟨hmin', hmax'⟩ := get_bbox_lat0_wrap 179 (2 * 300000) hlo' h1' h2'
  constructor
  · rw [hmin', hmax']
    apply degreesD_le_degreesD
    rw [hlon]
    nlinarith
  · rw [hmax, hmax']
    apply degreesD_lt_degreesD
    rw [hlon]
    nlinarith

/-- C6 (amended): doubling the radius never shrinks the box as long as the
doubled box still needs no longitude wrap (both branch conditions stay
within [−π, π]) and the parallel radius is positive: each side of the
doubled box lies at or beyond the corresponding side of the original box.
(Once the wrap branch fires, the mirrored east edge moves inward and the
doubled box can fail to contain the original, as the counterexample
shows.) -/
theorem claim_C6 (lat lon r : ℝ) (hr : 0 < r)
    (hcos : 0 < Real.cos (radiansD lat))
    (hlo : -Real.pi ≤ radiansD lon -
      2 * r / 1000 / (6371 * Real.cos (radiansD lat)))
    (hhi : radiansD lon +
      2 * r / 1000 / (6371 * Real.cos (radiansD lat)) ≤ Real.pi) :
    (get_bbox lat lon (2 * r)).1 ≤ (get_bbox lat lon r).1 ∧
    (get_bbox lat lon r).2.2.1 ≤ (get_bbox lat lon (2 * r)).2.2.1 ∧
    (get_bbox lat lon (2 * r)).2.1 ≤ (get_bbox lat lon r).2.1 ∧
    (get_bbox lat lon r).2.2.2 ≤ (get_bbox lat lon (2 * r)).2.2.2 := by
  have hC : 0 < 6371 * Real.cos (radiansD lat) :=
    mul_pos (by norm_num) hcos
  have hδpos : 0 < r / 1000 / (6371 * Real.cos (radiansD lat)) :=
    div_pos (div_pos hr (by norm_num)) hC
  have h2δ : 2 * r / 1000 / (6371 * Real.cos (radiansD lat)) =
      2 * (r / 1000 / (6371 * Real.cos (radiansD lat))) := by ring
  have hlo1 : -Real.pi ≤ radiansD lon -
      r / 1000 / (6371 * Real.cos (radiansD lat)) := by
    rw [h2δ] at hlo
    linarith
  have hhi1 : radiansD lon +
      r / 1000 / (6371 * Real.cos (radiansD lat)) ≤ Real.pi := by
    rw [h2δ] at hhi
    linarith
  have hlatδ : 0 < r / 1000 / 6371 := by positivity
  have hlat2δ : 2 * r / 1000 / 6371 = 2 * (r / 1000 / 6371) := by ring
  rw [get_bbox_no_wrap lat lon r hlo1 hhi1,
    get_bbox_no_wrap lat lon (2 * r) hlo hhi]
  refine ⟨?_, ?_, ?_, ?_⟩
  · apply degreesD_le_degreesD
    apply max_le_max le_rfl
    rw [hlat2δ]
    linarith
  · apply degreesD_le_degreesD
    apply min_le_min le_rfl
    rw [hlat2δ]
    linarith
  · apply degreesD_le_degreesD
    rw [h2δ]
    linarith
  · apply degreesD_le_degreesD
    rw [h2δ]
    linarith

/-- C6 witness: the amended monotonicity applied at center (0°, 0°) with
radius 1 km. -/
theorem claim_C6_w :
    (0 : ℝ) < 1000 ∧ 0 < Real.cos (radiansD 0) ∧
    ((get_bbox 0 0 (2 * 1000)).1 ≤ (get_bbox 0 0 1000).1 ∧
     (get_bbox 0 0 1000).2.2.1 ≤ (get_bbox 0 0 (2 * 1000)).2.2.1 ∧
     (get_bbox 0 0 (2 * 1000)).2.1 ≤ (get_bbox 0 0 1000).2.1 ∧
     (get_bbox 0 0 1000).2.2.2 ≤ (get_bbox 0 0 (2 * 1000)).2.2.2) := by
  have h0 : radiansD 0 = 0 := by unfold radiansD; ring
  have hc : Real.cos (radiansD 0) = 1 := by rw [h0]; exact Real.cos_zero
  have h6 : (6371 : ℝ) * Real.cos (radiansD 0) = 6371 := by rw [hc, mul_one]
  refine ⟨by norm_num, by rw [hc]; norm_num, ?_⟩
  refine claim_C6 0 0 1000 (by norm_num) (by rw [hc]; norm_num) ?_ ?_
  · rw [h0, Real.cos_zero]
    linarith [Real.pi_gt_three]
  · rw [h0, Real.cos_zero]
    linarith [Real.pi_gt_three]

end OpenSky
